import Mathlib

/-!
Shallow embedding of the `open-cost-challenge` repository.

The repository contains three Go programs:
* `mcp_server` (src/first_server/opencost_client.go): an HTTP gateway with
  three handlers (`/cloudCosts`, `/allocations`, `/assets`), a global
  session store `sessions : map[string][]string`, and a local re-filter
  pass over the records returned by the downstream data source;
* `mock_server` (src/mock_server/mock_opencost_server.go): the mock data
  source with its own filtering handlers;
* a CLI client (not modelled: it only renders responses).

Modelling conventions:
* Go strings are Lean `String`s; the byte-level operations the code uses
  (`strings.ToLower`, `strings.Contains`, `strings.EqualFold`) are
  re-implemented below over `List Char` (they agree with Go on the ASCII
  data this program handles).
* `time.Time` is modelled as `Int` (a timestamp on a linear order), with
  the Go zero value `time.Time{}` being `0` (`IsZero` is `· = 0`).
  `time.Parse(time.RFC3339, s)` is external library code, so it is
  abstracted as a parameter `parse : String → Option Int`: `parse s =
  some t` models a successful parse yielding time `t`, `none` a parse
  error.  Go's `t, _ := time.Parse(...)` idiom (ignore the error, keep
  the zero value on failure) is `(parse s).getD 0`.
* The Go map `sessions` is a function `String → Option (List String)`;
  `v, ok := m[k]` is `m k` with `ok ↔ (m k).isSome`, and `m[k] = v` is a
  pointwise functional update.
* The downstream HTTP fetch (`getCloudCostsWithFilters` etc.) is
  abstracted by its outcome: `Except String (List α)`.  `.error` covers
  both an unreachable/non-2xx upstream and a JSON decode failure — the
  handler treats both identically (`err != nil` ⇒ HTTP 500).
* Handlers are pure step functions from (request data, upstream outcome,
  store) to (outcome, new store).
-/

/-! ## Go string primitives (ASCII semantics) -/

/-- `strings.ToLower` on one character (ASCII range, as used by the data). -/
def charToLower (c : Char) : Char :=
  if 65 ≤ c.toNat ∧ c.toNat ≤ 90 then Char.ofNat (c.toNat + 32) else c

/-- `strings.ToLower` over the characters of a string. -/
def strToLower (s : String) : List Char :=
  s.data.map charToLower

/-- Does `hay` start with `needle`?  (Helper for substring containment.) -/
def listStartsWith : List Char → List Char → Bool
  | _, [] => true
  | [], _ :: _ => false
  | a :: as, b :: bs => a == b && listStartsWith as bs

/-- `strings.Contains hay needle` over character lists: some suffix of
`hay` starts with `needle`. -/
def listContains : List Char → List Char → Bool
  | [], needle => listStartsWith [] needle
  | a :: t, needle => listStartsWith (a :: t) needle || listContains t needle

/-- `strings.Contains (strings.ToLower hay) (strings.ToLower needle)`,
the case-insensitive substring test used by the cloudCosts handlers. -/
def containsFold (hay needle : String) : Bool :=
  listContains (strToLower hay) (strToLower needle)

/-- `strings.EqualFold a b`: case-insensitive string equality (ASCII). -/
def goEqualFold (a b : String) : Bool :=
  strToLower a == strToLower b

/-! ## Data model (structs from the Go sources) -/

/-- `CloudCost` record.  The cost fields are `float64` baggage the
handlers never inspect; only `name` takes part in filtering, so the
costs are carried as opaque `Float` values. -/
structure CloudCost where
  name : String
  cpuCost : Float
  gpuCost : Float
  totalCost : Float

/-- `Allocation` record. -/
structure Allocation where
  namespace_ : String
  resource_id : String
  cpu_cost : Float
  memory_cost : Float
  gpu_cost : Float
  total_cost : Float
  start_time : String
  end_time : String

/-- `Asset` record. -/
structure Asset where
  asset_id : String
  name : String
  type_ : String
  status : String
  provider : String
  region : String
  cost : Float

/-- The `Filters` sub-object of `AgenticQuery` (all five fields live in
one struct, shared by all three endpoints). -/
structure Filters where
  namespace_ : String := ""
  start : String := ""
  «end» : String := ""
  provider : String := ""
  region : String := ""

/-- The `Context` sub-object of `AgenticQuery`.  `previous_query` and
`conversation_context` are part of the decoded shape but are never read
by any handler. -/
structure QueryContext where
  session_id : String := ""
  previous_query : String := ""
  conversation_context : List String := []

/-- The `AgenticQuery` POST body. -/
structure AgenticQuery where
  query : String := ""
  filters : Filters := {}
  context : QueryContext := {}

/-! ## The session store -/

/-- The global `sessions` map: `map[string][]string`. -/
def Store := String → Option (List String)

/-- The store at process start: `make(map[string][]string)`. -/
def emptyStore : Store := fun _ => none

/-- `sessions[sessionID] = history`: functional update of the map. -/
def storeWrite (s : Store) (k : String) (h : List String) : Store :=
  fun k' => if k' = k then some h else s k'

/-- Result of the session-context block shared verbatim by all three
handlers: the `previous` and `history` locals it leaves behind, plus the
updated `sessions` map. -/
structure SessionStep where
  previous : String
  history : List String
  store : Store

/-- The session-context block that appears identically in
`cloudCostsHandler`, `allocationsHandler` and `assetsHandler`:

```go
if sessionID != "" && queryText != "" {
    if existing, ok := sessions[sessionID]; ok && len(existing) > 0 {
        previous = existing[len(existing)-1]
        history = append(existing, queryText)
    } else {
        history = []string{queryText}
    }
    sessions[sessionID] = history
}
```

with `previous` and `history` initialised to `""` and `[]` beforehand. -/
def updateSessionContext (sessions : Store) (sessionID queryText : String) :
    SessionStep :=
  if sessionID ≠ "" ∧ queryText ≠ "" then
    match sessions sessionID with
    | some existing =>
      if 0 < existing.length then
        { previous := existing.getLastD ""
          history := existing ++ [queryText]
          store := storeWrite sessions sessionID (existing ++ [queryText]) }
      else
        { previous := ""
          history := [queryText]
          store := storeWrite sessions sessionID [queryText] }
    | none =>
      { previous := ""
        history := [queryText]
        store := storeWrite sessions sessionID [queryText] }
  else
    { previous := "", history := [], store := sessions }

/-! ## Gateway re-filter predicates (first_server) -/

/-- `parseDate` from the gateway, with the error discarded as all its
callers do (`startTime, _ := parseDate(start)`): empty string yields the
zero time, a parse failure also leaves the zero value. -/
def parseDate (parse : String → Option Int) (dateStr : String) : Int :=
  if dateStr = "" then 0 else (parse dateStr).getD 0

/-- The loop body of the gateway's local allocations filter:

```go
if namespace != "" && alloc.Namespace != namespace { continue }
allocStart, _ := time.Parse(time.RFC3339, alloc.StartTime)
allocEnd, _ := time.Parse(time.RFC3339, alloc.EndTime)
if !startTime.IsZero() && allocEnd.Before(startTime) { continue }
if !endTime.IsZero() && allocStart.After(endTime) { continue }
filtered = append(filtered, alloc)
```

`true` means the record is appended to `filtered`. -/
def allocKeep (parse : String → Option Int) (namespace_ start end_ : String)
    (alloc : Allocation) : Bool :=
  let startTime := parseDate parse start
  let endTime := parseDate parse end_
  let allocStart := (parse alloc.start_time).getD 0
  let allocEnd := (parse alloc.end_time).getD 0
  if namespace_ ≠ "" ∧ alloc.namespace_ ≠ namespace_ then false
  else if startTime ≠ 0 ∧ allocEnd < startTime then false
  else if endTime ≠ 0 ∧ endTime < allocStart then false
  else true

/-- The gateway's local allocations re-filter pass. -/
def allocationsLocalFilter (parse : String → Option Int)
    (namespace_ start end_ : String) (data : List Allocation) :
    List Allocation :=
  data.filter (allocKeep parse namespace_ start end_)

/-- The gateway's local cloudCosts re-filter pass:

```go
filtered := []CloudCost{}
if namespace != "" {
    for _, cost := range data {
        if strings.Contains(strings.ToLower(cost.Name), strings.ToLower(namespace)) {
            filtered = append(filtered, cost)
        }
    }
} else {
    filtered = data
}
``` -/
def cloudCostsLocalFilter (namespace_ : String) (data : List CloudCost) :
    List CloudCost :=
  if namespace_ ≠ "" then
    data.filter (fun cost => containsFold cost.name namespace_)
  else data

/-- The loop body of the gateway's local assets filter (`true` = kept). -/
def assetKeep (provider region : String) (asset : Asset) : Bool :=
  if provider ≠ "" ∧ ¬ goEqualFold asset.provider provider then false
  else if region ≠ "" ∧ ¬ goEqualFold asset.region region then false
  else true

/-- The gateway's local assets re-filter pass. -/
def assetsLocalFilter (provider region : String) (data : List Asset) :
    List Asset :=
  data.filter (assetKeep provider region)

/-! ## Mock data source filter predicates (mock_server)

The mock server's handlers filter their hardcoded record lists; the
predicates below are its loop bodies, stated over arbitrary records with
the same fields. -/

namespace Mock

/-- Loop body of the mock `/cloudCosts` handler (`true` = kept):
`namespace == "" || strings.Contains(strings.ToLower(name), strings.ToLower(namespace))`. -/
def cloudKeep (namespace_ : String) (cost : CloudCost) : Bool :=
  namespace_ == "" || containsFold cost.name namespace_

/-- Mock `/cloudCosts` filtering over a record list. -/
def cloudCostsFilter (namespace_ : String) (data : List CloudCost) :
    List CloudCost :=
  data.filter (cloudKeep namespace_)

/-- The mock allocations handler's start-filter exclusion test:

```go
if start != "" && errStart == nil {
    allocEnd, err := time.Parse(time.RFC3339, alloc["end_time"].(string))
    if err == nil && allocEnd.Before(startTime) { continue }
}
```

`true` means this clause skips (excludes) the record. -/
def startExcludes (parse : String → Option Int) (start : String)
    (alloc : Allocation) : Bool :=
  match parse start with
  | none => false
  | some startTime =>
    match parse alloc.end_time with
    | none => false
    | some allocEnd => decide (allocEnd < startTime)

/-- The mock allocations handler's end-filter exclusion test
(symmetric to `startExcludes`, using `allocStart.After(endTime)`). -/
def endExcludes (parse : String → Option Int) (end_ : String)
    (alloc : Allocation) : Bool :=
  match parse end_ with
  | none => false
  | some endTime =>
    match parse alloc.start_time with
    | none => false
    | some allocStart => decide (endTime < allocStart)

/-- Loop body of the mock `/allocations` handler (`true` = kept). -/
def allocKeep (parse : String → Option Int) (namespace_ start end_ : String)
    (alloc : Allocation) : Bool :=
  if namespace_ ≠ "" ∧ alloc.namespace_ ≠ namespace_ then false
  else if start ≠ "" ∧ startExcludes parse start alloc then false
  else if end_ ≠ "" ∧ endExcludes parse end_ alloc then false
  else true

/-- Mock `/allocations` filtering over a record list. -/
def allocationsFilter (parse : String → Option Int)
    (namespace_ start end_ : String) (data : List Allocation) :
    List Allocation :=
  data.filter (allocKeep parse namespace_ start end_)

/-- Loop body of the mock `/assets` handler (`true` = kept). -/
def assetKeep (provider region : String) (asset : Asset) : Bool :=
  if provider ≠ "" ∧ ¬ goEqualFold asset.provider provider then false
  else if region ≠ "" ∧ ¬ goEqualFold asset.region region then false
  else true

/-- Mock `/assets` filtering over a record list. -/
def assetsFilter (provider region : String) (data : List Asset) :
    List Asset :=
  data.filter (assetKeep provider region)

end Mock

/-! ## Gateway request handlers (first_server) -/

/-- HTTP method of the inbound request (the handlers only distinguish
POST from everything else). -/
inductive Method where
  | get
  | post
deriving DecidableEq

/-- The `meta` object of the gateway's response envelope. -/
structure RespMeta where
  filtersUsed : List (String × String)
  session_id : String
  previous_query : String
  conversation_context : List String
  total : Nat
deriving DecidableEq

/-- Outcome of one gateway request.  `badRequest` is the
`http.Error(..., StatusBadRequest)` on a body that fails to decode;
`serverError` is the `http.Error(..., StatusInternalServerError)` on a
failed upstream fetch (unreachable, non-2xx, or undecodable payload). -/
inductive Outcome (α : Type) where
  | badRequest
  | serverError
  | ok (data : List α) (meta : RespMeta)

/-- Shared tail of `cloudCostsHandler`: fetch, re-filter, respond. -/
def cloudCostsRespond (namespace_ sessionID : String) (step : SessionStep)
    (upstream : Except String (List CloudCost)) :
    Outcome CloudCost × Store :=
  match upstream with
  | .error _ => (.serverError, step.store)
  | .ok data =>
    let filtered := cloudCostsLocalFilter namespace_ data
    (.ok filtered
      { filtersUsed := [("namespace", namespace_)]
        session_id := sessionID
        previous_query := step.previous
        conversation_context := step.history
        total := filtered.length }, step.store)

/-- `cloudCostsHandler`.  Arguments: the current `sessions` store, the
request method, the URL query parameter `namespace`, the decoded POST
body (`none` models a body that fails to decode as `AgenticQuery`; it is
irrelevant for GET, which never reads the body), and the upstream fetch
outcome.  Returns the response outcome and the store after the request. -/
def cloudCostsHandler (sessions : Store) (method : Method)
    (urlNamespace : String) (body : Option AgenticQuery)
    (upstream : Except String (List CloudCost)) :
    Outcome CloudCost × Store :=
  match method, body with
  | .post, none => (.badRequest, sessions)
  | .post, some aq =>
    let step := updateSessionContext sessions aq.context.session_id aq.query
    cloudCostsRespond aq.filters.namespace_ aq.context.session_id step upstream
  | .get, _ =>
    cloudCostsRespond urlNamespace ""
      { previous := "", history := [], store := sessions } upstream

/-- Shared tail of `allocationsHandler`. -/
def allocationsRespond (parse : String → Option Int)
    (namespace_ start end_ sessionID : String) (step : SessionStep)
    (upstream : Except String (List Allocation)) :
    Outcome Allocation × Store :=
  match upstream with
  | .error _ => (.serverError, step.store)
  | .ok data =>
    let filtered := allocationsLocalFilter parse namespace_ start end_ data
    (.ok filtered
      { filtersUsed := [("namespace", namespace_), ("start", start), ("end", end_)]
        session_id := sessionID
        previous_query := step.previous
        conversation_context := step.history
        total := filtered.length }, step.store)

/-- `allocationsHandler`, with the same argument conventions as
`cloudCostsHandler` plus the URL parameters `start` and `end` and the
abstracted RFC3339 parser. -/
def allocationsHandler (parse : String → Option Int) (sessions : Store)
    (method : Method) (urlNamespace urlStart urlEnd : String)
    (body : Option AgenticQuery)
    (upstream : Except String (List Allocation)) :
    Outcome Allocation × Store :=
  match method, body with
  | .post, none => (.badRequest, sessions)
  | .post, some aq =>
    let step := updateSessionContext sessions aq.context.session_id aq.query
    allocationsRespond parse aq.filters.namespace_ aq.filters.start
      aq.filters.«end» aq.context.session_id step upstream
  | .get, _ =>
    allocationsRespond parse urlNamespace urlStart urlEnd ""
      { previous := "", history := [], store := sessions } upstream

/-- Shared tail of `assetsHandler`. -/
def assetsRespond (provider region sessionID : String) (step : SessionStep)
    (upstream : Except String (List Asset)) :
    Outcome Asset × Store :=
  match upstream with
  | .error _ => (.serverError, step.store)
  | .ok data =>
    let filtered := assetsLocalFilter provider region data
    (.ok filtered
      { filtersUsed := [("provider", provider), ("region", region)]
        session_id := sessionID
        previous_query := step.previous
        conversation_context := step.history
        total := filtered.length }, step.store)

/-- The effective `provider` filter computed by `assetsHandler` on the
POST path:

```go
if aq.Filters.Provider != "" {
    provider = aq.Filters.Provider
} else if aq.Filters.Namespace != "" {
    provider = aq.Filters.Namespace
}
```

(`provider` was initialised from the URL parameter). -/
def assetsEffectiveProvider (urlProvider : String) (f : Filters) : String :=
  if f.provider ≠ "" then f.provider
  else if f.namespace_ ≠ "" then f.namespace_
  else urlProvider

/-- The effective `region` filter computed by `assetsHandler` on the
POST path (falls back to the structured body's `start` field, then to
the URL parameter). -/
def assetsEffectiveRegion (urlRegion : String) (f : Filters) : String :=
  if f.region ≠ "" then f.region
  else if f.start ≠ "" then f.start
  else urlRegion

/-- `assetsHandler`. -/
def assetsHandler (sessions : Store) (method : Method)
    (urlProvider urlRegion : String) (body : Option AgenticQuery)
    (upstream : Except String (List Asset)) :
    Outcome Asset × Store :=
  match method, body with
  | .post, none => (.badRequest, sessions)
  | .post, some aq =>
    let step := updateSessionContext sessions aq.context.session_id aq.query
    assetsRespond (assetsEffectiveProvider urlProvider aq.filters)
      (assetsEffectiveRegion urlRegion aq.filters)
      aq.context.session_id step upstream
  | .get, _ =>
    assetsRespond urlProvider urlRegion ""
      { previous := "", history := [], store := sessions } upstream

/-! ## Auxiliary observations on outcomes and the session step -/

/-- Extract the `meta` object of a successful outcome. -/
def Outcome.metaOf {α : Type} : Outcome α → Option RespMeta
  | .ok _ m => some m
  | _ => none

/-- `true` exactly on the HTTP-500 outcome. -/
def Outcome.isServerError {α : Type} : Outcome α → Bool
  | .serverError => true
  | _ => false

/-- `true` exactly on the HTTP-400 outcome. -/
def Outcome.isBadRequest {α : Type} : Outcome α → Bool
  | .badRequest => true
  | _ => false

/-- When the session guard fails (`sessionID == "" || queryText == ""`),
the block is a no-op: empty previous/history, store untouched. -/
theorem updateSessionContext_noop (s : Store) (k q : String)
    (h : k = "" ∨ q = "") :
    updateSessionContext s k q = { previous := "", history := [], store := s } := by
  unfold updateSessionContext
  rcases h with h | h <;> simp [h]

/-- When the guard holds, the block reports the previous last entry and
the extended history, uniformly over absent/empty/non-empty entries. -/
theorem updateSessionContext_spec (s : Store) (k q : String)
    (hk : k ≠ "") (hq : q ≠ "") :
    (updateSessionContext s k q).previous = ((s k).getD []).getLastD "" ∧
    (updateSessionContext s k q).history = ((s k).getD []) ++ [q] ∧
    (updateSessionContext s k q).store =
      storeWrite s k (((s k).getD []) ++ [q]) := by
  unfold updateSessionContext
  rw [if_pos ⟨hk, hq⟩]
  match hsk : s k with
  | none => simp
  | some existing =>
    by_cases hlen : 0 < existing.length
    · simp [hlen]
    · have : existing = [] := List.length_eq_zero.mp (Nat.eq_zero_of_not_pos hlen)
      subst this
      simp

/-- One request either leaves a key's history alone or appends exactly
one element at its end; keys other than `key` are always untouched. -/
def StoreEvolves (old new : Store) (key q : String) : Prop :=
  (∀ k', k' ≠ key → new k' = old k') ∧
  (new key = old key ∨ new key = some (((old key).getD []) ++ [q]))

theorem storeEvolves_refl (s : Store) (key q : String) :
    StoreEvolves s s key q :=
  ⟨fun _ _ => rfl, Or.inl rfl⟩

theorem updateSessionContext_storeEvolves (s : Store) (k q : String) :
    StoreEvolves s (updateSessionContext s k q).store k q := by
  by_cases hg : k ≠ "" ∧ q ≠ ""
  · obtain ⟨h1, h2, h3⟩ := updateSessionContext_spec s k q hg.1 hg.2
    rw [h3]
    refine ⟨fun k' hk' => ?_, Or.inr ?_⟩
    · simp [storeWrite, hk']
    · simp [storeWrite]
  · rw [updateSessionContext_noop s k q (by tauto)]
    exact storeEvolves_refl s k q

/-- ### C8
Every request on every endpoint evolves the session store append-only:
there are a key and a query text such that every other key's history is
unchanged and that key's history is either unchanged or extended by
appending that one text at the end (no shrinking, no reordering, and
isolation between session keys). -/
theorem store_append_only_isolated (parse : String → Option Int) (s : Store)
    (m : Method) (ns st en pv rg : String) (body : Option AgenticQuery)
    (upC : Except String (List CloudCost))
    (upA : Except String (List Allocation))
    (upS : Except String (List Asset)) :
    (∃ key q, StoreEvolves s (cloudCostsHandler s m ns body upC).2 key q) ∧
    (∃ key q, StoreEvolves s
      (allocationsHandler parse s m ns st en body upA).2 key q) ∧
    (∃ key q, StoreEvolves s (assetsHandler s m pv rg body upS).2 key q) := by
  refine ⟨?_, ?_, ?_⟩
  · match m, body with
    | .post, none => exact ⟨"", "", storeEvolves_refl s "" ""⟩
    | .post, some aq =>
      refine ⟨aq.context.session_id, aq.query, ?_⟩
      have h := updateSessionContext_storeEvolves s aq.context.session_id aq.query
      match upC with
      | .error _ => exact h
      | .ok data => exact h
    | .get, body =>
      match upC with
      | .error _ => exact ⟨"", "", storeEvolves_refl s "" ""⟩
      | .ok data => exact ⟨"", "", storeEvolves_refl s "" ""⟩
  · match m, body with
    | .post, none => exact ⟨"", "", storeEvolves_refl s "" ""⟩
    | .post, some aq =>
      refine ⟨aq.context.session_id, aq.query, ?_⟩
      have h := updateSessionContext_storeEvolves s aq.context.session_id aq.query
      match upA with
      | .error _ => exact h
      | .ok data => exact h
    | .get, body =>
      match upA with
      | .error _ => exact ⟨"", "", storeEvolves_refl s "" ""⟩
      | .ok data => exact ⟨"", "", storeEvolves_refl s "" ""⟩
  · match m, body with
    | .post, none => exact ⟨"", "", storeEvolves_refl s "" ""⟩
    | .post, some aq =>
      refine ⟨aq.context.session_id, aq.query, ?_⟩
      have h := updateSessionContext_storeEvolves s aq.context.session_id aq.query
      match upS with
      | .error _ => exact h
      | .ok data => exact h
    | .get, body =>
      match upS with
      | .error _ => exact ⟨"", "", storeEvolves_refl s "" ""⟩
      | .ok data => exact ⟨"", "", storeEvolves_refl s "" ""⟩

/-- ### C9
The cloudCosts re-filter keeps a record iff the namespace filter is
empty or the record's name contains the filter as a case-insensitive
substring; in particular `namespace="PROD"` matches name `"prod-vm-1"`. -/
theorem cloudCosts_refilter_keep_iff (ns : String) (data : List CloudCost)
    (c : CloudCost) :
    (c ∈ cloudCostsLocalFilter ns data ↔
      c ∈ data ∧ (ns = "" ∨ containsFold c.name ns = true)) ∧
    containsFold "prod-vm-1" "PROD" = true := by
  constructor
  · unfold cloudCostsLocalFilter
    by_cases h : ns = ""
    · simp [h]
    · simp [h, List.mem_filter]
  · decide

/-- A response, when it is a success envelope, reports an empty
`previous_query` and an empty `conversation_context`. -/
def reportsEmptyContext {α : Type} (o : Outcome α) : Prop :=
  ∀ d meta, o = Outcome.ok d meta →
    meta.previous_query = "" ∧ meta.conversation_context = []

theorem cloudCostsRespond_empty (ns sid : String) (s : Store)
    (up : Except String (List CloudCost)) :
    (cloudCostsRespond ns sid ⟨"", [], s⟩ up).2 = s ∧
    reportsEmptyContext (cloudCostsRespond ns sid ⟨"", [], s⟩ up).1 := by
  cases up with
  | error e => exact ⟨rfl, fun d meta h => by cases h⟩
  | ok data =>
    refine ⟨rfl, fun d meta h => ?_⟩
    injection h with h1 h2
    subst h2
    exact ⟨rfl, rfl⟩

theorem allocationsRespond_empty (parse : String → Option Int)
    (ns st en sid : String) (s : Store)
    (up : Except String (List Allocation)) :
    (allocationsRespond parse ns st en sid ⟨"", [], s⟩ up).2 = s ∧
    reportsEmptyContext (allocationsRespond parse ns st en sid ⟨"", [], s⟩ up).1 := by
  cases up with
  | error e => exact ⟨rfl, fun d meta h => by cases h⟩
  | ok data =>
    refine ⟨rfl, fun d meta h => ?_⟩
    injection h with h1 h2
    subst h2
    exact ⟨rfl, rfl⟩

theorem assetsRespond_empty (pv rg sid : String) (s : Store)
    (up : Except String (List Asset)) :
    (assetsRespond pv rg sid ⟨"", [], s⟩ up).2 = s ∧
    reportsEmptyContext (assetsRespond pv rg sid ⟨"", [], s⟩ up).1 := by
  cases up with
  | error e => exact ⟨rfl, fun d meta h => by cases h⟩
  | ok data =>
    refine ⟨rfl, fun d meta h => ?_⟩
    injection h with h1 h2
    subst h2
    exact ⟨rfl, rfl⟩

/-- ### C7
A request whose session id is empty/absent or whose query text is empty
(every GET, and any such POST) leaves the session store untouched and,
when it succeeds, reports `previous_query = ""` and
`conversation_context = []` — on all three endpoints. -/
theorem invalid_session_no_tracking (parse : String → Option Int)
    (s : Store) (m : Method) (ns st en pv rg : String)
    (body : Option AgenticQuery)
    (upC : Except String (List CloudCost))
    (upA : Except String (List Allocation))
    (upS : Except String (List Asset))
    (h : ∀ aq, m = Method.post → body = some aq →
      aq.context.session_id = "" ∨ aq.query = "") :
    ((cloudCostsHandler s m ns body upC).2 = s ∧
      reportsEmptyContext (cloudCostsHandler s m ns body upC).1) ∧
    ((allocationsHandler parse s m ns st en body upA).2 = s ∧
      reportsEmptyContext (allocationsHandler parse s m ns st en body upA).1) ∧
    ((assetsHandler s m pv rg body upS).2 = s ∧
      reportsEmptyContext (assetsHandler s m pv rg body upS).1) := by
  match m, body with
  | .post, none =>
    exact ⟨⟨rfl, fun d meta hm => by cases hm⟩,
      ⟨rfl, fun d meta hm => by cases hm⟩,
      ⟨rfl, fun d meta hm => by cases hm⟩⟩
  | .post, some aq =>
    have hnoop := updateSessionContext_noop s aq.context.session_id aq.query
      (h aq rfl rfl)
    simp only [cloudCostsHandler, allocationsHandler, assetsHandler, hnoop]
    exact ⟨cloudCostsRespond_empty _ _ s upC,
      allocationsRespond_empty parse _ _ _ _ s upA,
      assetsRespond_empty _ _ _ s upS⟩
  | .get, body =>
    exact ⟨cloudCostsRespond_empty _ _ s upC,
      allocationsRespond_empty parse _ _ _ _ s upA,
      assetsRespond_empty _ _ _ s upS⟩

/-- Witness for C7: a concrete GET request leaves the store unchanged. -/
theorem invalid_session_no_tracking_witness :
    (cloudCostsHandler emptyStore Method.get "" none (Except.ok [])).2 =
      emptyStore :=
  (invalid_session_no_tracking (fun _ => none) emptyStore Method.get
    "" "" "" "" "" none (Except.ok []) (Except.ok []) (Except.ok [])
    (fun _ hm _ => by cases hm)).1.1

/-- ### C3
A valid request (non-empty session id and query) on any endpoint, when
the session key currently holds the history `h` (its `n` previously
appended entries, `[]` if absent), succeeds with `previous_query` equal
to the last of those entries (`""` when there are none) and
`conversation_context` equal to `h` with the new query appended: length
`n + 1`, new query last. -/
theorem valid_request_reports_history (parse : String → Option Int)
    (s : Store) (ns st en pv rg : String) (aq : AgenticQuery)
    (dC : List CloudCost) (dA : List Allocation) (dS : List Asset)
    (h : List String)
    (hsid : aq.context.session_id ≠ "") (hq : aq.query ≠ "")
    (hh : (s aq.context.session_id).getD [] = h) :
    (((cloudCostsHandler s Method.post ns (some aq) (Except.ok dC)).1.metaOf.map
        RespMeta.previous_query = some (h.getLastD "")) ∧
      ((cloudCostsHandler s Method.post ns (some aq) (Except.ok dC)).1.metaOf.map
        RespMeta.conversation_context = some (h ++ [aq.query]))) ∧
    (((allocationsHandler parse s Method.post ns st en (some aq)
        (Except.ok dA)).1.metaOf.map RespMeta.previous_query =
          some (h.getLastD "")) ∧
      ((allocationsHandler parse s Method.post ns st en (some aq)
        (Except.ok dA)).1.metaOf.map RespMeta.conversation_context =
          some (h ++ [aq.query]))) ∧
    (((assetsHandler s Method.post pv rg (some aq) (Except.ok dS)).1.metaOf.map
        RespMeta.previous_query = some (h.getLastD "")) ∧
      ((assetsHandler s Method.post pv rg (some aq) (Except.ok dS)).1.metaOf.map
        RespMeta.conversation_context = some (h ++ [aq.query]))) ∧
    (h ++ [aq.query]).length = h.length + 1 ∧
    (h ++ [aq.query]).getLast? = some aq.query := by
  obtain ⟨hp, hhist, _⟩ :=
    updateSessionContext_spec s aq.context.session_id aq.query hsid hq
  rw [hh] at hp hhist
  refine ⟨⟨?_, ?_⟩, ⟨?_, ?_⟩, ⟨?_, ?_⟩, by simp, List.getLast?_concat h⟩ <;>
    simp only [cloudCostsHandler, allocationsHandler, assetsHandler,
      cloudCostsRespond, allocationsRespond, assetsRespond,
      Outcome.metaOf, Option.map, hp, hhist]

/-- Witness for C3: second request on session `"s1"` after `"Q1"` was
stored reports `previous_query = "Q1"`. -/
theorem valid_request_reports_history_witness :
    (allocationsHandler (fun _ => none) (storeWrite emptyStore "s1" ["Q1"])
        Method.post "" "" ""
        (some { query := "Q2", filters := {},
                context := { session_id := "s1" } })
        (Except.ok [])).1.metaOf.map RespMeta.previous_query = some "Q1" :=
  (valid_request_reports_history (fun _ => none)
    (storeWrite emptyStore "s1" ["Q1"]) "" "" "" "" ""
    { query := "Q2", filters := {}, context := { session_id := "s1" } }
    [] [] [] ["Q1"] (by decide) (by decide) (by decide)).2.1.1

/-- Every key present in the store maps to a non-empty history all of
whose entries are non-empty query texts. -/
def StoreOK (s : Store) : Prop :=
  ∀ k h, s k = some h → h ≠ [] ∧ ∀ q ∈ h, q ≠ ""

theorem updateSessionContext_preserves_StoreOK (s : Store) (k q : String)
    (hs : StoreOK s) : StoreOK (updateSessionContext s k q).store := by
  by_cases hg : k ≠ "" ∧ q ≠ ""
  · obtain ⟨-, -, h3⟩ := updateSessionContext_spec s k q hg.1 hg.2
    rw [h3]
    intro k' h' hk'
    unfold storeWrite at hk'
    by_cases hkk : k' = k
    · rw [if_pos hkk] at hk'
      injection hk' with hk'
      subst hk'
      refine ⟨by simp, fun x hx => ?_⟩
      rcases List.mem_append.mp hx with hx | hx
      · match hsk : s k with
        | none => rw [hsk] at hx; simp at hx
        | some e => rw [hsk] at hx; exact (hs k e hsk).2 x hx
      · simp at hx
        subst hx
        exact hg.2
    · rw [if_neg hkk] at hk'
      exact hs k' h' hk'
  · rw [updateSessionContext_noop s k q (by tauto)]
    exact hs

theorem cloudCostsHandler_store_cases (s : Store) (m : Method) (ns : String)
    (body : Option AgenticQuery) (upC : Except String (List CloudCost)) :
    (cloudCostsHandler s m ns body upC).2 = s ∨
    ∃ aq, body = some aq ∧ (cloudCostsHandler s m ns body upC).2 =
      (updateSessionContext s aq.context.session_id aq.query).store := by
  match m, body with
  | .post, none => exact Or.inl rfl
  | .post, some aq =>
    refine Or.inr ⟨aq, rfl, ?_⟩
    match upC with
    | .error _ => rfl
    | .ok data => rfl
  | .get, body =>
    match upC with
    | .error _ => exact Or.inl rfl
    | .ok data => exact Or.inl rfl

theorem allocationsHandler_store_cases (parse : String → Option Int)
    (s : Store) (m : Method) (ns st en : String)
    (body : Option AgenticQuery) (upA : Except String (List Allocation)) :
    (allocationsHandler parse s m ns st en body upA).2 = s ∨
    ∃ aq, body = some aq ∧ (allocationsHandler parse s m ns st en body upA).2 =
      (updateSessionContext s aq.context.session_id aq.query).store := by
  match m, body with
  | .post, none => exact Or.inl rfl
  | .post, some aq =>
    refine Or.inr ⟨aq, rfl, ?_⟩
    match upA with
    | .error _ => rfl
    | .ok data => rfl
  | .get, body =>
    match upA with
    | .error _ => exact Or.inl rfl
    | .ok data => exact Or.inl rfl

theorem assetsHandler_store_cases (s : Store) (m : Method) (pv rg : String)
    (body : Option AgenticQuery) (upS : Except String (List Asset)) :
    (assetsHandler s m pv rg body upS).2 = s ∨
    ∃ aq, body = some aq ∧ (assetsHandler s m pv rg body upS).2 =
      (updateSessionContext s aq.context.session_id aq.query).store := by
  match m, body with
  | .post, none => exact Or.inl rfl
  | .post, some aq =>
    refine Or.inr ⟨aq, rfl, ?_⟩
    match upS with
    | .error _ => rfl
    | .ok data => rfl
  | .get, body =>
    match upS with
    | .error _ => exact Or.inl rfl
    | .ok data => exact Or.inl rfl

/-- ### C10
The store starts satisfying the invariant "every stored key has a
non-empty history of non-empty texts", every request on every endpoint
preserves it, and under it a valid request reports `previous_query = ""`
exactly when its session key was absent before the request. -/
theorem stored_histories_nonempty :
    StoreOK emptyStore ∧
    (∀ (parse : String → Option Int) (s : Store) (m : Method)
      (ns st en pv rg : String) (body : Option AgenticQuery)
      (upC : Except String (List CloudCost))
      (upA : Except String (List Allocation))
      (upS : Except String (List Asset)), StoreOK s →
      StoreOK (cloudCostsHandler s m ns body upC).2 ∧
      StoreOK (allocationsHandler parse s m ns st en body upA).2 ∧
      StoreOK (assetsHandler s m pv rg body upS).2) ∧
    (∀ (s : Store) (k q : String), StoreOK s → k ≠ "" → q ≠ "" →
      ((updateSessionContext s k q).previous = "" ↔ s k = none)) := by
  refine ⟨fun k h hk => Option.noConfusion hk, ?_, ?_⟩
  · intro parse s m ns st en pv rg body upC upA upS hs
    refine ⟨?_, ?_, ?_⟩
    · rcases cloudCostsHandler_store_cases s m ns body upC with h | ⟨aq, -, h⟩ <;>
        rw [h]
      · exact hs
      · exact updateSessionContext_preserves_StoreOK s _ _ hs
    · rcases allocationsHandler_store_cases parse s m ns st en body upA with
        h | ⟨aq, -, h⟩ <;> rw [h]
      · exact hs
      · exact updateSessionContext_preserves_StoreOK s _ _ hs
    · rcases assetsHandler_store_cases s m pv rg body upS with h | ⟨aq, -, h⟩ <;>
        rw [h]
      · exact hs
      · exact updateSessionContext_preserves_StoreOK s _ _ hs
  · intro s k q hs hk hq
    obtain ⟨hp, -, -⟩ := updateSessionContext_spec s k q hk hq
    rw [hp]
    constructor
    · intro hlast
      match hsk : s k with
      | none => rfl
      | some e =>
        obtain ⟨hne, hall⟩ := hs k e hsk
        rw [hsk] at hlast
        simp only [Option.getD] at hlast
        have hmem : e.getLastD "" ∈ e := by
          rw [List.getLastD_eq_getLast?, List.getLast?_eq_getLast e hne]
          simp [List.getLast_mem]
        exact absurd hlast (hall _ hmem)
    · intro hnone
      rw [hnone]
      rfl

/-- Witness for C10: over the empty store, `previous_query = ""` and the
key is indeed absent. -/
theorem stored_histories_nonempty_witness :
    (updateSessionContext emptyStore "s1" "Q1").previous = "" ↔
      emptyStore "s1" = none :=
  stored_histories_nonempty.2.2 emptyStore "s1" "Q1"
    stored_histories_nonempty.1 (by decide) (by decide)

/-! ## Concrete parser instance for witnesses and counterexamples -/

/-- A concrete restriction of Go's RFC3339 parsing, used to instantiate
the abstract `parse` parameter: three valid timestamps mapped in
chronological order to positive times, everything else (including `""`
and `"not-a-date"`) fails to parse. -/
def demoParse : String → Option Int
  | "2025-08-01T00:00:00Z" => some 100
  | "2025-08-02T00:00:00Z" => some 200
  | "2025-08-03T00:00:00Z" => some 300
  | _ => none

/-- ### C1 (counterexample)
A POST to `/allocations` with a valid session (`"s1"`, query `"Q1"`)
whose upstream fetch fails is answered with a server error, yet the
session store has gained the entry — the append happens before the
fetch, so an error-ending request does mutate history. -/
theorem error_request_mutates_history_cex :
    ((allocationsHandler demoParse emptyStore Method.post "" "" ""
        (some { query := "Q1", filters := {},
                context := { session_id := "s1" } })
        (Except.error "connection refused")).1.isServerError = true) ∧
    ((allocationsHandler demoParse emptyStore Method.post "" "" ""
        (some { query := "Q1", filters := {},
                context := { session_id := "s1" } })
        (Except.error "connection refused")).2 "s1" = some ["Q1"]) ∧
    emptyStore "s1" = none := by
  refine ⟨rfl, by decide, rfl⟩

/-- ### C1 (amended)
A structured-query body that fails to decode (BadRequest) aborts the
request before any history mutation, on all three endpoints.  An
unreachable/undecodable upstream (UpstreamError/DecodeError) is surfaced
as a server error, but the session append has already happened by then:
the resulting store is exactly the post-append store, so a valid session
key's history is extended even though the request fails.  GET-form
requests never mutate the store. -/
theorem error_paths_history (parse : String → Option Int) (s : Store)
    (ns st en pv rg : String) (aq : AgenticQuery) (eC eA eS : String)
    (upC : Except String (List CloudCost))
    (upA : Except String (List Allocation))
    (upS : Except String (List Asset)) :
    ((cloudCostsHandler s Method.post ns none upC).1.isBadRequest = true ∧
      (cloudCostsHandler s Method.post ns none upC).2 = s) ∧
    ((allocationsHandler parse s Method.post ns st en none upA).1.isBadRequest = true ∧
      (allocationsHandler parse s Method.post ns st en none upA).2 = s) ∧
    ((assetsHandler s Method.post pv rg none upS).1.isBadRequest = true ∧
      (assetsHandler s Method.post pv rg none upS).2 = s) ∧
    ((cloudCostsHandler s Method.post ns (some aq) (Except.error eC)).1.isServerError = true ∧
      (cloudCostsHandler s Method.post ns (some aq) (Except.error eC)).2 =
        (updateSessionContext s aq.context.session_id aq.query).store) ∧
    ((allocationsHandler parse s Method.post ns st en (some aq)
        (Except.error eA)).1.isServerError = true ∧
      (allocationsHandler parse s Method.post ns st en (some aq)
        (Except.error eA)).2 =
        (updateSessionContext s aq.context.session_id aq.query).store) ∧
    ((assetsHandler s Method.post pv rg (some aq) (Except.error eS)).1.isServerError = true ∧
      (assetsHandler s Method.post pv rg (some aq) (Except.error eS)).2 =
        (updateSessionContext s aq.context.session_id aq.query).store) ∧
    ((cloudCostsHandler s Method.get ns none (Except.error eC)).2 = s) ∧
    ((allocationsHandler parse s Method.get ns st en none (Except.error eA)).2 = s) ∧
    ((assetsHandler s Method.get pv rg none (Except.error eS)).2 = s) :=
  ⟨⟨rfl, rfl⟩, ⟨rfl, rfl⟩, ⟨rfl, rfl⟩, ⟨rfl, rfl⟩, ⟨rfl, rfl⟩, ⟨rfl, rfl⟩,
    rfl, rfl, rfl⟩

/-! ## The unsynchronized append, split at its sequence point (C2)

`sessions` is a plain Go map mutated from `net/http` handler goroutines
with no mutual exclusion.  Under concurrent requests the block
`existing, ok := sessions[sessionID]; ...; sessions[sessionID] = history`
is *not* atomic: another goroutine's write can fall between the read and
the write.  `sessionReadCompute` is the pure first half (everything up
to and including computing `previous`/`history` from the read), and
`storeWrite` the second half; an interleaving is a sequence of these
half-steps. -/

/-- The read-and-compute half of the session block: from the value read
for `sessions[sessionID]`, compute `(previous, history)`. -/
def sessionReadCompute (existing : Option (List String))
    (queryText : String) : String × List String :=
  match existing with
  | some e =>
    if 0 < e.length then (e.getLastD "", e ++ [queryText])
    else ("", [queryText])
  | none => ("", [queryText])

/-- Sanity link: the session block is exactly read-compute followed
immediately by the write — the race below is the same code with another
write slipped between the two halves. -/
theorem updateSessionContext_eq_read_then_write (s : Store) (k q : String)
    (hk : k ≠ "") (hq : q ≠ "") :
    updateSessionContext s k q =
      { previous := (sessionReadCompute (s k) q).1
        history := (sessionReadCompute (s k) q).2
        store := storeWrite s k (sessionReadCompute (s k) q).2 } := by
  unfold updateSessionContext sessionReadCompute
  rw [if_pos ⟨hk, hq⟩]
  cases s k with
  | none => rfl
  | some e => by_cases hl : 0 < e.length <;> simp [hl]

/-- ### C2
Lost update: with both handler goroutines reading `sessions["s"]` (both
see the initial absent entry) before either writes, the schedule
read-A, read-B, write-A, write-B leaves `sessions["s"] = ["B"]` — query
`"A"` is silently dropped, contradicting the atomic-append contract. -/
theorem concurrent_append_lost_update :
    ((storeWrite (storeWrite emptyStore "s"
        (sessionReadCompute (emptyStore "s") "A").2) "s"
        (sessionReadCompute (emptyStore "s") "B").2) "s" = some ["B"]) ∧
    "A" ∉ ((storeWrite (storeWrite emptyStore "s"
        (sessionReadCompute (emptyStore "s") "A").2) "s"
        (sessionReadCompute (emptyStore "s") "B").2) "s").getD [] := by
  decide

/-- ### C4 (counterexample)
On the same inputs — empty namespace filter, start filter
`2025-08-03`, a record whose `end_time` does not parse — the gateway's
re-filter drops the record (the failed parse leaves the zero time,
which is before the start filter) while the mock data source keeps it
(it skips the comparison on a parse error): the two predicates do not
have identical matching semantics. -/
theorem gateway_mock_filter_divergence_cex :
    (allocKeep demoParse "" "2025-08-03T00:00:00Z" ""
      { namespace_ := "dev", resource_id := "pod-123", cpu_cost := 0,
        memory_cost := 0, gpu_cost := 0, total_cost := 0,
        start_time := "2025-08-01T00:00:00Z",
        end_time := "not-a-date" } = false) ∧
    (Mock.allocKeep demoParse "" "2025-08-03T00:00:00Z" ""
      { namespace_ := "dev", resource_id := "pod-123", cpu_cost := 0,
        memory_cost := 0, gpu_cost := 0, total_cost := 0,
        start_time := "2025-08-01T00:00:00Z",
        end_time := "not-a-date" } = true) ∧
    demoParse "not-a-date" = none := by
  refine ⟨by decide, by decide, rfl⟩

/-- Record-level agreement of the gateway and mock allocation
predicates, under the side conditions that make the error-ignoring
parses of the gateway harmless: both record timestamps parse, and a
filter value never parses to the zero time. -/
theorem allocKeep_eq_mock (parse : String → Option Int)
    (ns st en : String) (a : Allocation)
    (hS : (parse a.start_time).isSome) (hE : (parse a.end_time).isSome)
    (hst : parse st ≠ some 0) (hen : parse en ≠ some 0) :
    allocKeep parse ns st en a = Mock.allocKeep parse ns st en a := by
  obtain ⟨aS, haS⟩ := Option.isSome_iff_exists.mp hS
  obtain ⟨aE, haE⟩ := Option.isSome_iff_exists.mp hE
  by_cases hns : ns ≠ "" ∧ a.namespace_ ≠ ns
  · simp [allocKeep, Mock.allocKeep, hns]
  · by_cases h1 : st = ""
    · by_cases h2 : en = ""
      · simp [allocKeep, Mock.allocKeep, parseDate, h1, h2, hns]
      · cases hp : parse en with
        | none =>
          simp [allocKeep, Mock.allocKeep, Mock.endExcludes, parseDate,
            h1, h2, hns, hp]
        | some w =>
          have hw : w ≠ 0 := fun h => hen (h ▸ hp)
          simp [allocKeep, Mock.allocKeep, Mock.endExcludes, parseDate,
            h1, h2, hns, hp, hw, haS]
    · cases hp : parse st with
      | none =>
        by_cases h2 : en = ""
        · simp [allocKeep, Mock.allocKeep, Mock.startExcludes, parseDate,
            h1, h2, hns, hp]
        · cases hq : parse en with
          | none =>
            simp [allocKeep, Mock.allocKeep, Mock.startExcludes,
              Mock.endExcludes, parseDate, h1, h2, hns, hp, hq]
          | some w =>
            have hw : w ≠ 0 := fun h => hen (h ▸ hq)
            simp [allocKeep, Mock.allocKeep, Mock.startExcludes,
              Mock.endExcludes, parseDate, h1, h2, hns, hp, hq, hw, haS]
      | some v =>
        have hv : v ≠ 0 := fun h => hst (h ▸ hp)
        by_cases h2 : en = ""
        · simp [allocKeep, Mock.allocKeep, Mock.startExcludes, parseDate,
            h1, h2, hns, hp, hv, haE]
        · cases hq : parse en with
          | none =>
            simp [allocKeep, Mock.allocKeep, Mock.startExcludes,
              Mock.endExcludes, parseDate, h1, h2, hns, hp, hq, hv, haE]
          | some w =>
            have hw : w ≠ 0 := fun h => hen (h ▸ hq)
            simp [allocKeep, Mock.allocKeep, Mock.startExcludes,
              Mock.endExcludes, parseDate, h1, h2, hns, hp, hq, hv, hw,
              haS, haE]

/-- ### C4 (amended)
The gateway's local re-filter passes agree with the mock data source's
own filters unconditionally for cloudCosts and assets; for allocations
they agree whenever both record timestamps parse and no filter value
parses to the zero time — they genuinely diverge when a record
timestamp fails to parse (the gateway may exclude such a record, the
data source keeps it). -/
theorem gateway_refilter_matches_mock (parse : String → Option Int)
    (ns st en pv rg : String) (dC : List CloudCost) (dS : List Asset)
    (dA : List Allocation)
    (hA : ∀ a ∈ dA, (parse a.start_time).isSome ∧ (parse a.end_time).isSome)
    (hst : parse st ≠ some 0) (hen : parse en ≠ some 0) :
    cloudCostsLocalFilter ns dC = Mock.cloudCostsFilter ns dC ∧
    assetsLocalFilter pv rg dS = Mock.assetsFilter pv rg dS ∧
    allocationsLocalFilter parse ns st en dA =
      Mock.allocationsFilter parse ns st en dA := by
  refine ⟨?_, rfl, ?_⟩
  · unfold cloudCostsLocalFilter Mock.cloudCostsFilter Mock.cloudKeep
    by_cases h : ns = ""
    · subst h; simp
    · rw [if_pos h]
      refine List.filter_congr fun c _ => ?_
      have : (ns == "") = false := by simpa using h
      rw [this, Bool.false_or]
  · unfold allocationsLocalFilter Mock.allocationsFilter
    exact List.filter_congr fun a ha =>
      allocKeep_eq_mock parse ns st en a (hA a ha).1 (hA a ha).2 hst hen

/-- Witness for amended C4: on a record with two parseable timestamps
and the concrete filters used in the counterexample, the two filter
passes agree. -/
theorem gateway_refilter_matches_mock_witness :
    allocationsLocalFilter demoParse "prod" "2025-08-03T00:00:00Z" ""
      [{ namespace_ := "prod", resource_id := "pod-456", cpu_cost := 0,
         memory_cost := 0, gpu_cost := 0, total_cost := 0,
         start_time := "2025-08-01T00:00:00Z",
         end_time := "2025-08-02T00:00:00Z" }] =
    Mock.allocationsFilter demoParse "prod" "2025-08-03T00:00:00Z" ""
      [{ namespace_ := "prod", resource_id := "pod-456", cpu_cost := 0,
         memory_cost := 0, gpu_cost := 0, total_cost := 0,
         start_time := "2025-08-01T00:00:00Z",
         end_time := "2025-08-02T00:00:00Z" }] :=
  (gateway_refilter_matches_mock demoParse "prod" "2025-08-03T00:00:00Z" ""
    "" "" [] []
    [{ namespace_ := "prod", resource_id := "pod-456", cpu_cost := 0,
       memory_cost := 0, gpu_cost := 0, total_cost := 0,
       start_time := "2025-08-01T00:00:00Z",
       end_time := "2025-08-02T00:00:00Z" }]
    (by decide) (by decide) (by decide)).2.2

/-- ### C5 (counterexample)
A record with malformed `end_time` is *not* kept under a non-empty
parseable start filter: the gateway's re-filter excludes it, because
the ignored parse error leaves `allocEnd` at the zero time, which is
`Before` any positive start time. -/
theorem malformed_record_timestamp_excluded_cex :
    demoParse "not-a-date" = none ∧
    demoParse "2025-08-03T00:00:00Z" = some 300 ∧
    (allocKeep demoParse "" "2025-08-03T00:00:00Z" ""
      { namespace_ := "prod", resource_id := "pod-456", cpu_cost := 0,
        memory_cost := 0, gpu_cost := 0, total_cost := 0,
        start_time := "2025-08-01T00:00:00Z",
        end_time := "not-a-date" } = false) := by
  refine ⟨rfl, rfl, by decide⟩

/-- ### C5 (amended)
Malformed *filter* values are indeed permissive: if each of the start
and end filters is empty or unparseable (and the namespace filter does
not exclude), the record is kept.  But malformed *record* timestamps
are not: a record whose `end_time` fails to parse is excluded by every
start filter that parses to a positive time. -/
theorem malformed_timestamp_policy :
    (∀ (parse : String → Option Int) (ns st en : String) (a : Allocation),
      (st = "" ∨ parse st = none) → (en = "" ∨ parse en = none) →
      (ns = "" ∨ a.namespace_ = ns) →
      allocKeep parse ns st en a = true) ∧
    (∀ (parse : String → Option Int) (ns st en : String) (a : Allocation)
      (t : Int),
      st ≠ "" → parse st = some t → 0 < t → parse a.end_time = none →
      allocKeep parse ns st en a = false) := by
  constructor
  · intro parse ns st en a hst hen hns
    have h1 : parseDate parse st = 0 := by
      rcases hst with h | h <;> simp [parseDate, h]
    have h2 : parseDate parse en = 0 := by
      rcases hen with h | h <;> simp [parseDate, h]
    have h3 : ¬(ns ≠ "" ∧ a.namespace_ ≠ ns) := by tauto
    simp [allocKeep, h1, h2, h3]
  · intro parse ns st en a t hst hp ht hbad
    by_cases hns : ns ≠ "" ∧ a.namespace_ ≠ ns
    · simp [allocKeep, hns]
    · have h1 : parseDate parse st = t := by simp [parseDate, hst, hp]
      simp [allocKeep, hns, h1, hbad, ht, ht.ne.symm]

/-- Witness for amended C5: an unparseable start filter keeps the
record; a parseable one excludes the record with bad `end_time`. -/
theorem malformed_timestamp_policy_witness :
    (allocKeep demoParse "" "bad-filter" ""
      { namespace_ := "prod", resource_id := "pod-456", cpu_cost := 0,
        memory_cost := 0, gpu_cost := 0, total_cost := 0,
        start_time := "2025-08-01T00:00:00Z",
        end_time := "not-a-date" } = true) ∧
    (allocKeep demoParse "" "2025-08-03T00:00:00Z" ""
      { namespace_ := "prod", resource_id := "pod-456", cpu_cost := 0,
        memory_cost := 0, gpu_cost := 0, total_cost := 0,
        start_time := "2025-08-01T00:00:00Z",
        end_time := "not-a-date" } = false) :=
  ⟨malformed_timestamp_policy.1 demoParse "" "bad-filter" ""
      { namespace_ := "prod", resource_id := "pod-456", cpu_cost := 0,
        memory_cost := 0, gpu_cost := 0, total_cost := 0,
        start_time := "2025-08-01T00:00:00Z", end_time := "not-a-date" }
      (Or.inr (by decide)) (Or.inl rfl) (Or.inl rfl),
   malformed_timestamp_policy.2 demoParse "" "2025-08-03T00:00:00Z" ""
      { namespace_ := "prod", resource_id := "pod-456", cpu_cost := 0,
        memory_cost := 0, gpu_cost := 0, total_cost := 0,
        start_time := "2025-08-01T00:00:00Z", end_time := "not-a-date" }
      300 (by decide) (by decide) (by decide) (by decide)⟩

/-- ### C6 (counterexample)
The structured form does not fully override the simple parameters on
the assets endpoint: with URL parameter `provider=aws` and a structured
body whose `filters` sub-object is entirely empty, the effective
provider filter reported (and used) is `"aws"`, not the structured
body's empty provider; and the body's `namespace` field is reused as
the provider when provider is absent. -/
theorem structured_override_cex :
    ((assetsHandler emptyStore Method.post "aws" ""
        (some { query := "", filters := {}, context := {} })
        (Except.ok [])).1.metaOf.map RespMeta.filtersUsed =
      some [("provider", "aws"), ("region", "")]) ∧
    ({} : Filters).provider = "" ∧
    assetsEffectiveProvider "" { namespace_ := "gcp" } = "gcp" := by
  refine ⟨by decide, rfl, by decide⟩

/-- ### C6 (amended)
The cloudCosts and allocations handlers take their effective filters
exactly from the structured body (full override, empty fields
included).  The assets handler instead merges field-by-field with
fallbacks: provider is the body's `provider` if non-empty, else the
body's `namespace` if non-empty, else the URL parameter; region is the
body's `region`, else the body's `start`, else the URL parameter. -/
theorem effective_filters_spec (parse : String → Option Int) (s : Store)
    (urlNs urlSt urlEn urlPv urlRg : String) (aq : AgenticQuery)
    (dC : List CloudCost) (dA : List Allocation) (dS : List Asset) :
    ((cloudCostsHandler s Method.post urlNs (some aq)
        (Except.ok dC)).1.metaOf.map RespMeta.filtersUsed =
      some [("namespace", aq.filters.namespace_)]) ∧
    ((allocationsHandler parse s Method.post urlNs urlSt urlEn (some aq)
        (Except.ok dA)).1.metaOf.map RespMeta.filtersUsed =
      some [("namespace", aq.filters.namespace_),
            ("start", aq.filters.start), ("end", aq.filters.«end»)]) ∧
    ((assetsHandler s Method.post urlPv urlRg (some aq)
        (Except.ok dS)).1.metaOf.map RespMeta.filtersUsed =
      some [("provider", assetsEffectiveProvider urlPv aq.filters),
            ("region", assetsEffectiveRegion urlRg aq.filters)]) ∧
    (aq.filters.provider ≠ "" →
      assetsEffectiveProvider urlPv aq.filters = aq.filters.provider) ∧
    (aq.filters.provider = "" → aq.filters.namespace_ ≠ "" →
      assetsEffectiveProvider urlPv aq.filters = aq.filters.namespace_) ∧
    (aq.filters.provider = "" → aq.filters.namespace_ = "" →
      assetsEffectiveProvider urlPv aq.filters = urlPv) ∧
    (aq.filters.region ≠ "" →
      assetsEffectiveRegion urlRg aq.filters = aq.filters.region) ∧
    (aq.filters.region = "" → aq.filters.start ≠ "" →
      assetsEffectiveRegion urlRg aq.filters = aq.filters.start) ∧
    (aq.filters.region = "" → aq.filters.start = "" →
      assetsEffectiveRegion urlRg aq.filters = urlRg) := by
  refine ⟨rfl, rfl, rfl, ?_, ?_, ?_, ?_, ?_, ?_⟩
  · intro h; simp [assetsEffectiveProvider, h]
  · intro h h'; simp [assetsEffectiveProvider, h, h']
  · intro h h'; simp [assetsEffectiveProvider, h, h']
  · intro h; simp [assetsEffectiveRegion, h]
  · intro h h'; simp [assetsEffectiveRegion, h, h']
  · intro h h'; simp [assetsEffectiveRegion, h, h']

/-- Witness for amended C6: the namespace→provider fallback fires on a
body with empty provider, and the full handler reports it. -/
theorem effective_filters_spec_witness :
    assetsEffectiveProvider "aws" { namespace_ := "gcp" } = "gcp" :=
  (effective_filters_spec (fun _ => none) emptyStore "" "" "" "aws" ""
    { query := "", filters := { namespace_ := "gcp" }, context := {} }
    [] [] []).2.2.2.2.1 (by decide) (by decide)
